import Mathlib

/-!
Shallow embedding of the kasir-api repository: a small cashier back-office
REST API with CRUD endpoints for categories and products and a sales-report
aggregation, backed by a relational store with soft deletes.

The relational tables are modelled as Lean lists of row structures; SQL
statements become list operations mirroring the WHERE / SET / RETURNING
clauses of the source. `NOW()` is passed in explicitly as a `Nat` timestamp
(microseconds); `sql.ErrNoRows` and scan failures become an error type.
-/

namespace KasirApi

/-- Errors surfaced by the database layer: `errNoRows` models `sql.ErrNoRows`;
`scanNull` models a `Rows.Scan` failure converting SQL NULL into a
non-nullable Go `int`/`string` destination. -/
inductive SqlError where
  | errNoRows
  | scanNull
deriving DecidableEq

/-- `models.Category`: id, name, description and the nullable soft-delete
timestamp (`none` = active row). Timestamps are `Nat` microseconds. -/
structure Category where
  ID : Int
  Name : String
  Description : String
  DeletedAt : Option Nat
deriving DecidableEq

/-- A row of the `product` table (the `Category` pointer of `models.Product`
is only populated on reads, never stored). -/
structure ProductRow where
  ID : Int
  Name : String
  Price : Int
  Stock : Int
  CategoryID : Int
  DeletedAt : Option Nat
deriving DecidableEq

/-- `models.Product` as returned by reads: a product row plus the optionally
embedded category. -/
structure Product where
  row : ProductRow
  Category : Option KasirApi.Category
deriving DecidableEq

abbrev CategoryTable := List Category
abbrev ProductTable := List ProductRow

/-- Row predicate for `WHERE id = $1 AND deleted_at IS NULL` on `category`. -/
def catActiveWithID (id : Int) (c : Category) : Bool :=
  c.ID == id && c.DeletedAt.isNone

/-- `CategoryRepository.GetAll`:
`SELECT id, name, description, deleted_at FROM category WHERE deleted_at IS NULL`. -/
def CategoryRepository.GetAll (tbl : CategoryTable) : List Category :=
  tbl.filter (fun c => c.DeletedAt.isNone)

/-- `CategoryRepository.GetByID`:
`SELECT ... FROM category WHERE id = $1 AND deleted_at IS NULL`;
`QueryRow.Scan` yields `sql.ErrNoRows` when no row matches. -/
def CategoryRepository.GetByID (tbl : CategoryTable) (id : Int) :
    Except SqlError Category :=
  match tbl.find? (catActiveWithID id) with
  | none => .error .errNoRows
  | some c => .ok c

/-- `CategoryRepository.Create`:
`INSERT INTO category (name, description) VALUES ($1, $2) RETURNING id, deleted_at`.
The store assigns `newId`; the inserted row has NULL `deleted_at`, so the
returned struct keeps the caller's `DeletedAt` field (the scan only
overwrites it when the returned column is non-NULL). -/
def CategoryRepository.Create (tbl : CategoryTable) (category : Category)
    (newId : Int) : Category × CategoryTable :=
  ({ category with ID := newId },
   tbl ++ [{ ID := newId, Name := category.Name,
             Description := category.Description, DeletedAt := none }])

/-- `CategoryRepository.Delete`:
`UPDATE category SET deleted_at = NOW() WHERE id = $1 AND deleted_at IS NULL`,
then `RowsAffected`; zero affected rows is reported as `sql.ErrNoRows`. -/
def CategoryRepository.Delete (tbl : CategoryTable) (id : Int) (now : Nat) :
    Except SqlError CategoryTable :=
  let affected := tbl.countP (catActiveWithID id)
  if affected == 0 then .error .errNoRows
  else .ok (tbl.map (fun c =>
    if catActiveWithID id c then { c with DeletedAt := some now } else c))

/-- `CategoryRepository.Update`:
`UPDATE category SET name = $1, description = $2 WHERE id = $3 AND deleted_at IS NULL
RETURNING id, name, description, deleted_at`. No matching active row yields
`sql.ErrNoRows`; otherwise the scan writes back the returned columns (the
returned `deleted_at` is NULL because the row matched `deleted_at IS NULL`,
so the caller's `DeletedAt` field is kept). -/
def CategoryRepository.Update (tbl : CategoryTable) (category : Category) :
    Except SqlError (Category × CategoryTable) :=
  match tbl.find? (catActiveWithID category.ID) with
  | none => .error .errNoRows
  | some row =>
    .ok ({ category with ID := row.ID },
         tbl.map (fun c =>
           if catActiveWithID category.ID c then
             { c with Name := category.Name, Description := category.Description }
           else c))

/-- `ProductRepository.GetAll`:
`SELECT ... FROM product WHERE deleted_at IS NULL`. -/
def ProductRepository.GetAll (prods : ProductTable) : List ProductRow :=
  prods.filter (fun p => p.DeletedAt.isNone)

/-- `ProductRepository.GetByID`:
`SELECT p.id, p.name, p.price, p.stock, p.category_id, p.deleted_at,
        c.id, c.name, c.description
 FROM product p LEFT JOIN category c ON p.category_id = c.id
 WHERE p.id = $1 AND p.deleted_at IS NULL`.
The join has no `deleted_at` filter on `category`, so a soft-deleted
category is still embedded; only `c.id, c.name, c.description` are
selected, so the embedded category has `DeletedAt = none`. When the left
join finds no category the three category columns are NULL and scanning
them into the non-nullable `int`/`string` fields of `models.Category`
fails, which this model records as `scanNull`. -/
def ProductRepository.GetByID (prods : ProductTable) (cats : CategoryTable)
    (id : Int) : Except SqlError Product :=
  match prods.find? (fun p => p.ID == id && p.DeletedAt.isNone) with
  | none => .error .errNoRows
  | some p =>
    match cats.find? (fun c => c.ID == p.CategoryID) with
    | none => .error .scanNull
    | some c =>
      .ok { row := p,
            Category := some { ID := c.ID, Name := c.Name,
                               Description := c.Description, DeletedAt := none } }

/-- `ProductRepository.Create`:
`INSERT INTO product (name, price, stock, category_id) VALUES ($1,$2,$3,$4)
RETURNING id, deleted_at`. -/
def ProductRepository.Create (prods : ProductTable) (product : ProductRow)
    (newId : Int) : ProductRow × ProductTable :=
  ({ product with ID := newId },
   prods ++ [{ ID := newId, Name := product.Name, Price := product.Price,
               Stock := product.Stock, CategoryID := product.CategoryID,
               DeletedAt := none }])

/-- `ProductRepository.Update`:
`UPDATE product SET name = $1, price = $2, stock = $3, category_id = $4
 WHERE id = $5 RETURNING deleted_at`.
Note: unlike the category update, there is no `deleted_at IS NULL` filter,
so a soft-deleted row is updated too; `sql.ErrNoRows` only when no row at
all has the id. The returned struct gets `DeletedAt` from the scanned
`deleted_at` column when it is non-NULL. -/
def ProductRepository.Update (prods : ProductTable) (product : ProductRow) :
    Except SqlError (ProductRow × ProductTable) :=
  match prods.find? (fun p => p.ID == product.ID) with
  | none => .error .errNoRows
  | some row =>
    .ok ((match row.DeletedAt with
          | some t => { product with DeletedAt := some t }
          | none => product),
         prods.map (fun p =>
           if p.ID == product.ID then
             { p with Name := product.Name, Price := product.Price,
                      Stock := product.Stock, CategoryID := product.CategoryID }
           else p))

/-- `ProductRepository.Delete`:
`UPDATE product SET deleted_at = NOW() WHERE id = $1` — no
`deleted_at IS NULL` filter and no `RowsAffected` check: every row with the
id (active or already soft-deleted) gets `deleted_at` re-assigned, and the
call succeeds even when nothing matched. -/
def ProductRepository.Delete (prods : ProductTable) (id : Int) (now : Nat) :
    Except SqlError ProductTable :=
  .ok (prods.map (fun p =>
    if p.ID == id then { p with DeletedAt := some now } else p))

/-!
Sales-report repository. Timestamps are `Nat` microseconds; the Go code
passes date strings like `"2024-01-02 23:59:59"` to the SQL layer, which
compares them as timestamps, so the model takes the corresponding
microsecond values directly.
-/

/-- A row of the `transactions` table. -/
structure Transaction where
  id : Int
  totalAmount : Int
  createdAt : Nat
  deletedAt : Option Nat
deriving DecidableEq

/-- A row of the `transaction_details` table. -/
structure TransactionDetail where
  transactionId : Int
  productId : Int
  quantity : Int
deriving DecidableEq

/-- `models.TopProduct`: name and summed quantity sold. -/
structure TopProduct where
  Nama : String
  QtyTerjual : Int
deriving DecidableEq

/-- `models.SalesReport`. -/
structure SalesReport where
  TotalRevenue : Int
  TotalTransaksi : Nat
  ProdukTerlaris : Option TopProduct
deriving DecidableEq

/-- The tables the report queries touch. -/
structure ReportDB where
  transactions : List Transaction
  transactionDetails : List TransactionDetail
  products : ProductTable
deriving DecidableEq

/-- The transaction filter shared by both report queries:
`created_at >= $1 AND created_at <= $2 AND deleted_at IS NULL`. -/
def inRangeB (startDate endDate : Nat) (t : Transaction) : Bool :=
  decide (startDate ≤ t.createdAt) && decide (t.createdAt ≤ endDate)
    && t.deletedAt.isNone

/-- The row set of the top-product query before grouping:
`FROM transaction_details td
 INNER JOIN transactions t ON td.transaction_id = t.id
 INNER JOIN product p ON td.product_id = p.id
 WHERE t.created_at >= $1 AND t.created_at <= $2 AND t.deleted_at IS NULL`,
projected to `(p.id, p.name, td.quantity)`. -/
def joinedRows (db : ReportDB) (startDate endDate : Nat) :
    List (Int × String × Int) :=
  db.transactionDetails.flatMap (fun td =>
    (db.transactions.filter (fun t =>
        t.id == td.transactionId && inRangeB startDate endDate t)).flatMap
      (fun _t => (db.products.filter (fun p => p.ID == td.productId)).map
        (fun p => (p.ID, p.Name, td.quantity))))

/-- The `GROUP BY p.id, p.name` keys of the top-product query. -/
def groupKeys (rows : List (Int × String × Int)) : List (Int × String) :=
  (rows.map (fun r => (r.1, r.2.1))).eraseDups

/-- `SUM(td.quantity)` for one group key. -/
def qtyOf (rows : List (Int × String × Int)) (k : Int × String) : Int :=
  (rows.filter (fun r => r.1 == k.1 && r.2.1 == k.2)).foldl
    (fun acc r => acc + r.2.2) 0

/-- `ORDER BY qty_terjual DESC LIMIT 1` over the grouped rows; the spec
leaves ties arbitrary, the model keeps the earlier group on a tie. An empty
row set gives `none` (`sql.ErrNoRows` on the scan, handled as "no top
product" by the source). -/
def topProductOf (rows : List (Int × String × Int)) : Option TopProduct :=
  (groupKeys rows).foldl (fun acc k =>
    let q := qtyOf rows k
    match acc with
    | none => some ⟨k.2, q⟩
    | some tp => if q > tp.QtyTerjual then some ⟨k.2, q⟩ else acc) none

/-- `ReportRepository.GetSalesReportByDateRange`: first query computes
`COALESCE(SUM(total_amount), 0)` and `COUNT(*)` over the in-range active
transactions; second query computes the top product (or `none`). -/
def ReportRepository.GetSalesReportByDateRange (db : ReportDB)
    (startDate endDate : Nat) : SalesReport :=
  let matching := db.transactions.filter (inRangeB startDate endDate)
  { TotalRevenue := (matching.map Transaction.totalAmount).sum,
    TotalTransaksi := matching.length,
    ProdukTerlaris := topProductOf (joinedRows db startDate endDate) }

/-- Microseconds per second. -/
def usPerSec : Nat := 1000000

/-- Microseconds per day. -/
def usPerDay : Nat := 86400000000

/-- `ReportRepository.GetDailySalesReport`: fetches `CURRENT_DATE` from the
store (its local timezone clock, here `now` in microseconds) and queries the
range `[today 00:00:00, today 23:59:59]` — the upper bound is the whole
second 23:59:59, not the end of the day. -/
def ReportRepository.GetDailySalesReport (db : ReportDB) (now : Nat) :
    SalesReport :=
  let today := now / usPerDay
  let startOfDay := today * usPerDay
  let endOfDay := today * usPerDay + 86399 * usPerSec
  ReportRepository.GetSalesReportByDateRange db startOfDay endOfDay

/-!
Handler layer for the `/api/category/{id}` routes. The handler receives the
path suffix after `strings.TrimPrefix(r.URL.Path, "/api/category/")` and,
for PUT, the decoded JSON body (`none` models a body that fails to decode).
Outcomes record the HTTP status code, the response envelope, the resulting
category table, and the names of the service calls issued, in order.
-/

/-- Digit-string value, as accumulated by `strconv.Atoi`. -/
def digitsVal (ds : List Char) : Nat :=
  ds.foldl (fun acc ch => acc * 10 + (ch.toNat - 48)) 0

/-- `strconv.Atoi`: optional leading sign, then one or more decimal digits,
nothing else; fails (`none`) on the empty string, any non-digit character,
or a value outside the 64-bit `int` range. -/
def atoi (str : String) : Option Int :=
  let chars := str.toList
  let signed : Int × List Char :=
    match chars with
    | '+' :: rest => (1, rest)
    | '-' :: rest => (-1, rest)
    | _ => (1, chars)
  if signed.2.isEmpty then none
  else if signed.2.all Char.isDigit then
    let v : Int := signed.1 * (digitsVal signed.2 : Int)
    if -(2 ^ 63) ≤ v ∧ v ≤ 2 ^ 63 - 1 then some v else none
  else none

/-- `utils.Response`: the `{status, message, data}` envelope, with `Data`
here specialised to the category payload of the category handlers. -/
structure Response where
  Status : String
  Message : String
  Data : Option Category
deriving DecidableEq

/-- What `err.Error()` contributes to 500 messages. -/
def errText (e : SqlError) : String :=
  match e with
  | .errNoRows => "sql: no rows in result set"
  | .scanNull => "sql: Scan error converting NULL"

/-- Result of running one category handler: HTTP status code, envelope,
resulting category table, and the service calls issued in order. -/
structure CatOutcome where
  code : Nat
  resp : Response
  table : CategoryTable
  calls : List String
deriving DecidableEq

/-- `CategoryHandler.GetCategoryByID` on the path suffix `idStr`. -/
def CategoryHandler.GetCategoryByID (tbl : CategoryTable) (idStr : String) :
    CatOutcome :=
  match atoi idStr with
  | none => ⟨400, ⟨"failed", "Invalid Category ID", none⟩, tbl, []⟩
  | some id =>
    match CategoryRepository.GetByID tbl id with
    | .error .errNoRows =>
      ⟨404, ⟨"failed", "Category not found", none⟩, tbl, ["GetByID"]⟩
    | .error e =>
      ⟨500, ⟨"failed", "Failed to fetch category: " ++ errText e, none⟩,
       tbl, ["GetByID"]⟩
    | .ok c =>
      ⟨200, ⟨"success", "Category retrieved successfully", some c⟩,
       tbl, ["GetByID"]⟩

/-- `CategoryHandler.DeleteCategory` on the path suffix `idStr`. -/
def CategoryHandler.DeleteCategory (tbl : CategoryTable) (now : Nat)
    (idStr : String) : CatOutcome :=
  match atoi idStr with
  | none => ⟨400, ⟨"failed", "Invalid Category ID", none⟩, tbl, []⟩
  | some id =>
    match CategoryRepository.Delete tbl id now with
    | .error .errNoRows =>
      ⟨404, ⟨"failed", "Category not found", none⟩, tbl, ["Delete"]⟩
    | .error e =>
      ⟨500, ⟨"failed", "Failed to delete category: " ++ errText e, none⟩,
       tbl, ["Delete"]⟩
    | .ok tbl2 =>
      ⟨200, ⟨"success", "Category deleted successfully", none⟩, tbl2, ["Delete"]⟩

/-- `CategoryHandler.UpdateCategory` on the path suffix `idStr` with decoded
body `body` (`none` = malformed JSON): parse the id, decode, fetch the
existing category, merge the non-empty incoming string fields onto it, then
store the merged entity. -/
def CategoryHandler.UpdateCategory (tbl : CategoryTable) (idStr : String)
    (body : Option Category) : CatOutcome :=
  match atoi idStr with
  | none => ⟨400, ⟨"failed", "Invalid Category ID", none⟩, tbl, []⟩
  | some id =>
    match body with
    | none => ⟨400, ⟨"failed", "Invalid request body", none⟩, tbl, []⟩
    | some updateCategory =>
      match CategoryRepository.GetByID tbl id with
      | .error .errNoRows =>
        ⟨404, ⟨"failed", "Category not found", none⟩, tbl, ["GetByID"]⟩
      | .error e =>
        ⟨500, ⟨"failed", "Failed to fetch category: " ++ errText e, none⟩,
         tbl, ["GetByID"]⟩
      | .ok existingCategory =>
        let merged1 :=
          if updateCategory.Name ≠ "" then
            { existingCategory with Name := updateCategory.Name }
          else existingCategory
        let merged2 :=
          if updateCategory.Description ≠ "" then
            { merged1 with Description := updateCategory.Description }
          else merged1
        match CategoryRepository.Update tbl merged2 with
        | .error .errNoRows =>
          ⟨404, ⟨"failed", "Category not found", none⟩, tbl,
           ["GetByID", "Update"]⟩
        | .error e =>
          ⟨500, ⟨"failed", "Failed to update category: " ++ errText e, none⟩,
           tbl, ["GetByID", "Update"]⟩
        | .ok (updatedCategory, tbl2) =>
          ⟨200, ⟨"success", "Category updated successfully",
                 some updatedCategory⟩, tbl2, ["GetByID", "Update"]⟩

/-!
A combined store and the operations that mutate it, used to state the
soft-delete monotonicity invariant across every write path of the
repository layer.
-/

/-- The two entity tables. -/
structure Store where
  categories : CategoryTable
  products : ProductTable
deriving DecidableEq

/-- Every store-mutating repository operation. `now` is the store clock
value a `NOW()` in the statement would read. -/
inductive StoreOp where
  | catCreate (c : Category) (newId : Int)
  | catUpdate (c : Category)
  | catDelete (id : Int) (now : Nat)
  | prodCreate (p : ProductRow) (newId : Int)
  | prodUpdate (p : ProductRow)
  | prodDelete (id : Int) (now : Nat)

/-- Run one repository write against the store; a failed write leaves the
store unchanged (the statement matched no rows). -/
def applyOp (op : StoreOp) (s : Store) : Store :=
  match op with
  | .catCreate c newId =>
    { s with categories := (CategoryRepository.Create s.categories c newId).2 }
  | .catUpdate c =>
    match CategoryRepository.Update s.categories c with
    | .ok (_, tbl) => { s with categories := tbl }
    | .error _ => s
  | .catDelete id now =>
    match CategoryRepository.Delete s.categories id now with
    | .ok tbl => { s with categories := tbl }
    | .error _ => s
  | .prodCreate p newId =>
    { s with products := (ProductRepository.Create s.products p newId).2 }
  | .prodUpdate p =>
    match ProductRepository.Update s.products p with
    | .ok (_, tbl) => { s with products := tbl }
    | .error _ => s
  | .prodDelete id now =>
    match ProductRepository.Delete s.products id now with
    | .ok tbl => { s with products := tbl }
    | .error _ => s

/-!
Helper lemmas.
-/

/-- Mapping a function that fixes every element of a list is the identity. -/
theorem map_fix_of_all {α : Type} (f : α → α) (l : List α)
    (h : ∀ a ∈ l, f a = a) : l.map f = l := by
  induction l with
  | nil => rfl
  | cons a t ih =>
    simp only [List.map_cons, h a (List.mem_cons_self a t)]
    rw [ih (fun x hx => h x (List.mem_cons_of_mem a hx))]

/-- Unfolding of the active-row predicate on categories. -/
theorem catActiveWithID_eq_true {id : Int} {c : Category} :
    catActiveWithID id c = true ↔ (c.ID = id ∧ c.DeletedAt = none) := by
  simp [catActiveWithID, Option.isNone_iff_eq_none]

/-- Facts packaged from a successful `CategoryRepository.GetByID`: the row
found is the first active row with the id, carries the id, is active, and
belongs to the table. -/
theorem getByID_ok_facts {tbl : CategoryTable} {id : Int} {c : Category}
    (h : CategoryRepository.GetByID tbl id = .ok c) :
    tbl.find? (catActiveWithID id) = some c ∧ c.ID = id ∧ c.DeletedAt = none
      ∧ c ∈ tbl := by
  have hf : tbl.find? (catActiveWithID id) = some c := by
    unfold CategoryRepository.GetByID at h
    cases hf2 : tbl.find? (catActiveWithID id) with
    | none => rw [hf2] at h; cases h
    | some r =>
      rw [hf2] at h
      simp only [Except.ok.injEq] at h
      rw [h]
  have hp := catActiveWithID_eq_true.mp (List.find?_some hf)
  exact ⟨hf, hp.1, hp.2, List.mem_of_find?_eq_some hf⟩

/-!
C2. The claim: for every entity, Delete(id) sets `deleted_at` to the current
time on the matching active row and fails with NotFound when no active row
is affected. The category repository behaves this way; the product
repository does not (`UPDATE product SET deleted_at = NOW() WHERE id = $1`
has no `deleted_at IS NULL` filter and the rows-affected count is never
checked).
-/

/-- C2 counterexample: deleting product id 5 whose only row is already
soft-deleted (`deleted_at = some 1`) succeeds and re-stamps `deleted_at`,
where the claim requires a NotFound failure because no active row is
affected. -/
theorem C2_counterexample :
    ProductRepository.Delete [⟨5, "a", 10, 1, 1, some 1⟩] 5 2
      = .ok [⟨5, "a", 10, 1, 1, some 2⟩] := rfl

/-- C2 (amended): Category `Delete(id)` soft-deletes the matching active
rows and fails with NotFound (`sql.ErrNoRows`) exactly when no active row
with the id exists; Product `Delete(id)` stamps `deleted_at = now` on every
row with the id, active or already soft-deleted, and always succeeds, even
when nothing is affected. -/
theorem C2_delete_semantics (tbl : CategoryTable) (prods : ProductTable)
    (id : Int) (now : Nat) :
    ((∃ c ∈ tbl, c.ID = id ∧ c.DeletedAt = none) →
      CategoryRepository.Delete tbl id now
        = .ok (tbl.map (fun c =>
            if catActiveWithID id c then { c with DeletedAt := some now } else c)))
    ∧ ((∀ c ∈ tbl, c.ID = id → c.DeletedAt ≠ none) →
      CategoryRepository.Delete tbl id now = .error .errNoRows)
    ∧ ProductRepository.Delete prods id now
        = .ok (prods.map (fun p =>
            if p.ID == id then { p with DeletedAt := some now } else p)) := by
  refine ⟨?_, ?_, rfl⟩
  · rintro ⟨c, hc, hid, hdel⟩
    have hcount : ¬ tbl.countP (catActiveWithID id) = 0 := by
      rw [List.countP_eq_zero]
      push_neg
      exact ⟨c, hc, by simp [catActiveWithID_eq_true, hid, hdel]⟩
    simp [CategoryRepository.Delete, hcount]
  · intro h
    have hcount : tbl.countP (catActiveWithID id) = 0 := by
      rw [List.countP_eq_zero]
      intro a ha
      simp only [catActiveWithID_eq_true, not_and]
      exact fun hid => h a ha hid
    simp [CategoryRepository.Delete, hcount]

/-- C2 witness: deleting an active category row succeeds and stamps the
clock value; deleting an already soft-deleted category row reports
NotFound. -/
theorem C2_witness :
    CategoryRepository.Delete [⟨3, "snack", "s", none⟩] 3 11
      = .ok [⟨3, "snack", "s", some 11⟩]
    ∧ CategoryRepository.Delete [⟨3, "snack", "s", some 4⟩] 3 11
      = .error .errNoRows := by
  constructor
  · have h := (C2_delete_semantics [⟨3, "snack", "s", none⟩] [] 3 11).1
      ⟨⟨3, "snack", "s", none⟩, by simp, rfl, rfl⟩
    exact h.trans rfl
  · exact (C2_delete_semantics [⟨3, "snack", "s", some 4⟩] [] 3 11).2.1
      (by intro c hc hid; simp at hc; subst hc; simp)

/-!
C3. The claim: for every entity, Update(entity) fails with NotFound when
the id is absent or the row is already soft-deleted, and on success fully
replaces the provided fields on the active row. The category repository
behaves this way; the product update statement
(`UPDATE product SET ... WHERE id = $5`) lacks the `deleted_at IS NULL`
filter, so it succeeds on a soft-deleted row.
-/

/-- C3 counterexample: updating product id 5 whose only row is soft-deleted
(`deleted_at = some 3`) succeeds and replaces the fields, where the claim
requires a NotFound failure for an already soft-deleted row. -/
theorem C3_counterexample :
    ProductRepository.Update [⟨5, "a", 10, 1, 1, some 3⟩] ⟨5, "b", 20, 2, 1, none⟩
      = .ok (⟨5, "b", 20, 2, 1, some 3⟩, [⟨5, "b", 20, 2, 1, some 3⟩]) := rfl

/-- C3 (amended): Category `Update` fails with NotFound exactly when no
active row carries the id and on success fully replaces name/description on
the active rows with that id; Product `Update` fails with NotFound only
when the id is absent from the table entirely — it performs the full
replace even when the row is soft-deleted. -/
theorem C3_update_semantics (tbl : CategoryTable) (prods : ProductTable)
    (cat : Category) (prod : ProductRow) :
    ((∀ c ∈ tbl, c.ID = cat.ID → c.DeletedAt ≠ none) →
      CategoryRepository.Update tbl cat = .error .errNoRows)
    ∧ (∀ ret tbl2, CategoryRepository.Update tbl cat = .ok (ret, tbl2) →
      (∃ c ∈ tbl, c.ID = cat.ID ∧ c.DeletedAt = none)
      ∧ tbl2 = tbl.map (fun c =>
          if catActiveWithID cat.ID c then
            { c with Name := cat.Name, Description := cat.Description }
          else c))
    ∧ ((∀ p ∈ prods, p.ID ≠ prod.ID) →
      ProductRepository.Update prods prod = .error .errNoRows)
    ∧ ((∃ p ∈ prods, p.ID = prod.ID) → ∃ ret,
      ProductRepository.Update prods prod
        = .ok (ret, prods.map (fun p =>
            if p.ID == prod.ID then
              { p with Name := prod.Name, Price := prod.Price,
                       Stock := prod.Stock, CategoryID := prod.CategoryID }
            else p))) := by
  refine ⟨?_, ?_, ?_, ?_⟩
  · intro h
    have hf : tbl.find? (catActiveWithID cat.ID) = none := by
      rw [List.find?_eq_none]
      intro c hc
      simp only [catActiveWithID_eq_true, not_and]
      exact fun hid => h c hc hid
    simp [CategoryRepository.Update, hf]
  · intro ret tbl2 h
    unfold CategoryRepository.Update at h
    cases hf : tbl.find? (catActiveWithID cat.ID) with
    | none => rw [hf] at h; cases h
    | some row =>
      rw [hf] at h
      simp only [Except.ok.injEq, Prod.mk.injEq] at h
      have hp := catActiveWithID_eq_true.mp (List.find?_some hf)
      exact ⟨⟨row, List.mem_of_find?_eq_some hf, hp.1, hp.2⟩, h.2.symm⟩
  · intro h
    have hf : prods.find? (fun p => p.ID == prod.ID) = none := by
      rw [List.find?_eq_none]
      intro p hp
      simpa using h p hp
    simp [ProductRepository.Update, hf]
  · rintro ⟨p, hp, hid⟩
    cases hf : prods.find? (fun q => q.ID == prod.ID) with
    | none =>
      exact absurd (by simpa using List.find?_eq_none.mp hf p hp) (by simp [hid])
    | some row =>
      refine ⟨(match row.DeletedAt with
               | some t => { prod with DeletedAt := some t }
               | none => prod), ?_⟩
      simp [ProductRepository.Update, hf]

/-- C3 witness: updating an active category replaces both fields; updating
a category whose only row with the id is soft-deleted reports NotFound. -/
theorem C3_witness :
    CategoryRepository.Update [⟨3, "snack", "s", none⟩] ⟨3, "food", "f", none⟩
      = .ok (⟨3, "food", "f", none⟩, [⟨3, "food", "f", none⟩])
    ∧ CategoryRepository.Update [⟨3, "snack", "s", some 4⟩] ⟨3, "food", "f", none⟩
      = .error .errNoRows := by
  constructor
  · rfl
  · exact (C3_update_semantics [⟨3, "snack", "s", some 4⟩] [] ⟨3, "food", "f", none⟩
      ⟨0, "", 0, 0, 0, none⟩).1
      (by intro c hc hid; simp at hc; subst hc; simp)

/-!
C5. The claim: Product `GetByID` embeds the related category via a left
join, and when the referenced category does not exist it still returns the
product with absent/zero category fields. The join is real, but the query
scans `c.id, c.name, c.description` into non-nullable Go fields, so the
NULLs produced by an unmatched left join make the scan fail: `GetByID`
returns an error instead of the product.
-/

/-- C5 counterexample: an active product whose `category_id` (99) matches
no category row makes `GetByID` fail with a scan error, where the claim
requires the product to be returned with zero category fields. -/
theorem C5_counterexample :
    ProductRepository.GetByID [⟨1, "p", 10, 1, 99, none⟩] [] 1
      = .error .scanNull := rfl

/-- C5 (amended): for an active product, `GetByID` returns the product with
the related category embedded when a category row with the referenced id
exists (the join does not filter soft-deleted categories, and the embedded
category carries only the three selected columns); when no category row
matches, `GetByID` fails with a NULL-scan error instead of returning the
product. -/
theorem C5_getbyid_join (prods : ProductTable) (cats : CategoryTable)
    (id : Int) (p : ProductRow)
    (hfind : prods.find? (fun q => q.ID == id && q.DeletedAt.isNone) = some p) :
    (∀ c, cats.find? (fun c => c.ID == p.CategoryID) = some c →
      ProductRepository.GetByID prods cats id
        = .ok { row := p,
                Category := some { ID := c.ID, Name := c.Name,
                                   Description := c.Description,
                                   DeletedAt := none } })
    ∧ ((∀ c ∈ cats, c.ID ≠ p.CategoryID) →
      ProductRepository.GetByID prods cats id = .error .scanNull) := by
  constructor
  · intro c hc
    simp [ProductRepository.GetByID, hfind, hc]
  · intro h
    have hf : cats.find? (fun c => c.ID == p.CategoryID) = none := by
      rw [List.find?_eq_none]
      intro c hc
      simpa using h c hc
    simp [ProductRepository.GetByID, hfind, hf]

/-- C5 witness: with the category row present (even soft-deleted, since the
join does not filter on `category.deleted_at`), the product comes back with
the category embedded. -/
theorem C5_witness :
    ProductRepository.GetByID [⟨1, "tea", 10, 1, 7, none⟩]
        [⟨7, "drinks", "d", some 9⟩] 1
      = .ok { row := ⟨1, "tea", 10, 1, 7, none⟩,
              Category := some ⟨7, "drinks", "d", none⟩ } := by
  exact (C5_getbyid_join [⟨1, "tea", 10, 1, 7, none⟩] [⟨7, "drinks", "d", some 9⟩]
    1 ⟨1, "tea", 10, 1, 7, none⟩ rfl).1 ⟨7, "drinks", "d", some 9⟩ rfl

/-!
C4. The claim: `deleted_at` is monotonic — once set it is never cleared and
never re-assigned — and null means active. No operation ever clears the
stamp, but `ProductRepository.Delete` re-stamps `deleted_at = NOW()` on a
row that is already soft-deleted, so "never re-assigned" fails.
-/

/-- Successful category update: the resulting table is the source table
with name/description replaced on the active rows carrying the id. -/
theorem cat_update_ok_table {tbl : CategoryTable} {cat ret : Category}
    {tbl2 : CategoryTable}
    (h : CategoryRepository.Update tbl cat = .ok (ret, tbl2)) :
    tbl2 = tbl.map (fun c =>
      if catActiveWithID cat.ID c then
        { c with Name := cat.Name, Description := cat.Description }
      else c) := by
  unfold CategoryRepository.Update at h
  cases hf : tbl.find? (catActiveWithID cat.ID) with
  | none => rw [hf] at h; cases h
  | some row =>
    rw [hf] at h
    simp only [Except.ok.injEq, Prod.mk.injEq] at h
    exact h.2.symm

/-- Successful category delete: the resulting table is the source table
with `deleted_at` stamped on the active rows carrying the id. -/
theorem cat_delete_ok_table {tbl : CategoryTable} {id : Int} {now : Nat}
    {tbl2 : CategoryTable}
    (h : CategoryRepository.Delete tbl id now = .ok tbl2) :
    tbl2 = tbl.map (fun c =>
      if catActiveWithID id c then { c with DeletedAt := some now } else c) := by
  simp only [CategoryRepository.Delete] at h
  split at h
  · cases h
  · simp only [Except.ok.injEq] at h; exact h.symm

/-- Successful product update: the resulting table replaces the four
updatable columns on every row carrying the id, active or not. -/
theorem prod_update_ok_table {prods : ProductTable} {prod ret : ProductRow}
    {prods2 : ProductTable}
    (h : ProductRepository.Update prods prod = .ok (ret, prods2)) :
    prods2 = prods.map (fun p =>
      if p.ID == prod.ID then
        { p with Name := prod.Name, Price := prod.Price,
                 Stock := prod.Stock, CategoryID := prod.CategoryID }
      else p) := by
  unfold ProductRepository.Update at h
  cases hf : prods.find? (fun p => p.ID == prod.ID) with
  | none => rw [hf] at h; cases h
  | some row =>
    rw [hf] at h
    simp only [Except.ok.injEq, Prod.mk.injEq] at h
    exact h.2.symm

/-- Product delete always succeeds and stamps every row carrying the id. -/
theorem prod_delete_ok_table {prods : ProductTable} {id : Int} {now : Nat}
    {prods2 : ProductTable}
    (h : ProductRepository.Delete prods id now = .ok prods2) :
    prods2 = prods.map (fun p =>
      if p.ID == id then { p with DeletedAt := some now } else p) := by
  unfold ProductRepository.Delete at h
  simp only [Except.ok.injEq] at h
  exact h.symm

/-- Pointwise mapping preserves a non-null deletion stamp at every index,
provided the mapped function never clears a stamp. -/
theorem map_keeps_deleted {α : Type} (del : α → Option Nat) (f : α → α)
    (l : List α) (hf : ∀ a, del a ≠ none → del (f a) ≠ none)
    (i : Nat) (c : α) (hc : l[i]? = some c) (h : del c ≠ none) :
    ∃ c2, (l.map f)[i]? = some c2 ∧ del c2 ≠ none := by
  refine ⟨f c, ?_, hf c h⟩
  rw [List.getElem?_map, hc]
  rfl

/-- Appending rows preserves every existing row at its index. -/
theorem append_keeps_at {α : Type} (l ext : List α)
    (i : Nat) (c : α) (hc : l[i]? = some c) :
    (l ++ ext)[i]? = some c := by
  have hl : i < l.length := (List.getElem?_eq_some.mp hc).1
  rw [List.getElem?_append, if_pos hl, hc]

/-- C4 counterexample: product id 9 is already soft-deleted at time 3;
running Delete again at time 5 re-assigns `deleted_at` to 5, where the
claim says a set `deleted_at` is never re-assigned by a later operation. -/
theorem C4_counterexample :
    ProductRepository.Delete [⟨9, "b", 5, 2, 1, some 3⟩] 9 5
      = .ok [⟨9, "b", 5, 2, 1, some 5⟩] ∧ (3 : Nat) ≠ 5 :=
  ⟨rfl, by decide⟩

/-- C4 (amended): `deleted_at` is never cleared — after any repository
write, a row whose `deleted_at` was set still has it set (though Product
Delete may re-stamp it with a new time) — and null means active: both
GetAll reads return exactly the rows with null `deleted_at`. -/
theorem C4_soft_delete_monotonic (op : StoreOp) (s : Store) :
    (∀ (i : Nat) (c : Category), s.categories[i]? = some c →
        c.DeletedAt ≠ none →
        ∃ c2, (applyOp op s).categories[i]? = some c2 ∧ c2.DeletedAt ≠ none)
    ∧ (∀ (i : Nat) (p : ProductRow), s.products[i]? = some p →
        p.DeletedAt ≠ none →
        ∃ p2, (applyOp op s).products[i]? = some p2 ∧ p2.DeletedAt ≠ none)
    ∧ (∀ c ∈ CategoryRepository.GetAll s.categories, c.DeletedAt = none)
    ∧ (∀ p ∈ ProductRepository.GetAll s.products, p.DeletedAt = none) := by
  refine ⟨?_, ?_, ?_, ?_⟩
  · intro i c hc h
    cases op with
    | catCreate cat newId =>
      exact ⟨c, append_keeps_at _ _ i c hc, h⟩
    | catUpdate cat =>
      simp only [applyOp]
      cases hu : CategoryRepository.Update s.categories cat with
      | error e => exact ⟨c, hc, h⟩
      | ok pr =>
        obtain ⟨ret, tbl2⟩ := pr
        rw [cat_update_ok_table hu]
        refine map_keeps_deleted Category.DeletedAt _ _ ?_ i c hc h
        intro a ha
        by_cases hca : catActiveWithID cat.ID a
        · simpa [hca] using ha
        · simpa [hca] using ha
    | catDelete id now =>
      simp only [applyOp]
      cases hd : CategoryRepository.Delete s.categories id now with
      | error e => exact ⟨c, hc, h⟩
      | ok tbl2 =>
        rw [cat_delete_ok_table hd]
        refine map_keeps_deleted Category.DeletedAt _ _ ?_ i c hc h
        intro a ha
        by_cases hca : catActiveWithID id a
        · simp [hca]
        · simpa [hca] using ha
    | prodCreate p newId => exact ⟨c, hc, h⟩
    | prodUpdate p =>
      simp only [applyOp]
      cases hu : ProductRepository.Update s.products p with
      | error e => exact ⟨c, hc, h⟩
      | ok pr => exact ⟨c, hc, h⟩
    | prodDelete id now =>
      simp only [applyOp]
      cases hd : ProductRepository.Delete s.products id now with
      | error e => exact ⟨c, hc, h⟩
      | ok tbl2 => exact ⟨c, hc, h⟩
  · intro i p hp h
    cases op with
    | prodCreate prod newId =>
      exact ⟨p, append_keeps_at _ _ i p hp, h⟩
    | prodUpdate prod =>
      simp only [applyOp]
      cases hu : ProductRepository.Update s.products prod with
      | error e => exact ⟨p, hp, h⟩
      | ok pr =>
        obtain ⟨ret, prods2⟩ := pr
        rw [prod_update_ok_table hu]
        refine map_keeps_deleted ProductRow.DeletedAt _ _ ?_ i p hp h
        intro a ha
        by_cases hpa : (a.ID == prod.ID)
        · simpa [hpa] using ha
        · simpa [hpa] using ha
    | prodDelete id now =>
      simp only [applyOp]
      cases hd : ProductRepository.Delete s.products id now with
      | error e => exact ⟨p, hp, h⟩
      | ok prods2 =>
        rw [prod_delete_ok_table hd]
        refine map_keeps_deleted ProductRow.DeletedAt _ _ ?_ i p hp h
        intro a ha
        by_cases hpa : (a.ID == id)
        · simp [hpa]
        · simpa [hpa] using ha
    | catCreate cat newId => exact ⟨p, hp, h⟩
    | catUpdate cat =>
      simp only [applyOp]
      cases hu : CategoryRepository.Update s.categories cat with
      | error e => exact ⟨p, hp, h⟩
      | ok pr => exact ⟨p, hp, h⟩
    | catDelete id now =>
      simp only [applyOp]
      cases hd : CategoryRepository.Delete s.categories id now with
      | error e => exact ⟨p, hp, h⟩
      | ok tbl2 => exact ⟨p, hp, h⟩
  · intro c hc
    exact Option.isNone_iff_eq_none.mp (List.mem_filter.mp hc).2
  · intro p hp
    exact Option.isNone_iff_eq_none.mp (List.mem_filter.mp hp).2

/-- C4 witness: deleting category 1 while category row 0 (id 1, already
deleted at time 2) is in the store keeps its stamp set. -/
theorem C4_witness :
    ∃ c2, (applyOp (.catDelete 1 9)
        ⟨[⟨1, "a", "b", some 2⟩], []⟩).categories[0]? = some c2
      ∧ c2.DeletedAt ≠ none := by
  exact (C4_soft_delete_monotonic (.catDelete 1 9)
    ⟨[⟨1, "a", "b", some 2⟩], []⟩).1 0 ⟨1, "a", "b", some 2⟩ rfl (by simp)

/-!
C6 and C7: the sales report.
-/

/-- C6: a date range containing no transactions yields total revenue 0,
transaction count 0 and no top product. -/
theorem C6_empty_range_report (db : ReportDB) (startDate endDate : Nat)
    (h : ∀ t ∈ db.transactions,
      ¬(startDate ≤ t.createdAt ∧ t.createdAt ≤ endDate)) :
    ReportRepository.GetSalesReportByDateRange db startDate endDate
      = { TotalRevenue := 0, TotalTransaksi := 0, ProdukTerlaris := none } := by
  have hrange : ∀ t ∈ db.transactions, inRangeB startDate endDate t = false := by
    intro t ht
    rw [Bool.eq_false_iff]
    intro htrue
    rw [inRangeB, Bool.and_eq_true, Bool.and_eq_true] at htrue
    exact h t ht ⟨of_decide_eq_true htrue.1.1, of_decide_eq_true htrue.1.2⟩
  have hfilter : db.transactions.filter (inRangeB startDate endDate) = [] := by
    rw [List.filter_eq_nil_iff]
    intro t ht
    rw [hrange t ht]
    simp
  have hjoin : joinedRows db startDate endDate = [] := by
    unfold joinedRows
    rw [List.flatMap_eq_nil_iff]
    intro td htd
    have hft : db.transactions.filter
        (fun t => t.id == td.transactionId && inRangeB startDate endDate t)
        = [] := by
      rw [List.filter_eq_nil_iff]
      intro t ht
      rw [hrange t ht]
      simp
    rw [hft]
    rfl
  simp only [ReportRepository.GetSalesReportByDateRange, hfilter, hjoin]
  rfl

/-- C6 witness: one transaction at time 30 with the queried range 10–20:
the report is all zeroes with no top product. -/
theorem C6_witness :
    ReportRepository.GetSalesReportByDateRange
        ⟨[⟨1, 100, 30, none⟩], [⟨1, 2, 3⟩], [⟨2, "x", 1, 1, 1, none⟩]⟩ 10 20
      = { TotalRevenue := 0, TotalTransaksi := 0, ProdukTerlaris := none } := by
  exact C6_empty_range_report
    ⟨[⟨1, 100, 30, none⟩], [⟨1, 2, 3⟩], [⟨2, "x", 1, 1, 1, none⟩]⟩ 10 20
    (by intro t ht; simp at ht; subst ht; simp)

/-- C7 counterexample: with the store clock at microsecond 0 of day 0, an
active transaction created at 23:59:59.5 of that same calendar day
(microsecond 86399500000, same value of `createdAt / usPerDay` as the
clock) is left out of the daily report, where the claim requires every
transaction of the current date, at any time of day, to be included. -/
theorem C7_counterexample :
    (ReportRepository.GetDailySalesReport
        ⟨[⟨1, 100, 86399500000, none⟩], [], []⟩ 0).TotalTransaksi = 0
    ∧ (86399500000 : Nat) / usPerDay = (0 : Nat) / usPerDay :=
  ⟨rfl, rfl⟩

/-- C7 (amended): the daily report queries the current store-local calendar
day with inclusive bounds `[00:00:00, 23:59:59]`: a transaction is counted
iff it is active, falls on the current date, and its time of day is at most
23:59:59.000000 — transactions in the final fractional second of the day
are excluded. -/
theorem C7_daily_range (db : ReportDB) (now : Nat) :
    ReportRepository.GetDailySalesReport db now
      = ReportRepository.GetSalesReportByDateRange db
          ((now / usPerDay) * usPerDay)
          ((now / usPerDay) * usPerDay + 86399 * usPerSec)
    ∧ ∀ t : Transaction,
        (inRangeB ((now / usPerDay) * usPerDay)
            ((now / usPerDay) * usPerDay + 86399 * usPerSec) t = true
          ↔ (t.deletedAt = none ∧ t.createdAt / usPerDay = now / usPerDay
              ∧ t.createdAt % usPerDay ≤ 86399 * usPerSec)) := by
  refine ⟨rfl, ?_⟩
  intro t
  simp only [inRangeB, Bool.and_eq_true, decide_eq_true_eq,
    Option.isNone_iff_eq_none]
  constructor
  · rintro ⟨⟨h1, h2⟩, h3⟩
    refine ⟨h3, ?_, ?_⟩ <;>
    · simp only [usPerDay, usPerSec] at h1 h2 ⊢
      omega
  · rintro ⟨h3, h1, h2⟩
    refine ⟨⟨?_, ?_⟩, h3⟩ <;>
    · simp only [usPerDay, usPerSec] at h1 h2 ⊢
      omega

/-- C7 witness: a transaction at noon of day 3 (microsecond
302400000000 = 3.5 days) is in range for a clock anywhere on day 3. -/
theorem C7_witness :
    inRangeB ((259200000000 / usPerDay) * usPerDay)
        ((259200000000 / usPerDay) * usPerDay + 86399 * usPerSec)
        ⟨1, 50, 302400000000, none⟩ = true := by
  exact ((C7_daily_range ⟨[], [], []⟩ 259200000000).2
    ⟨1, 50, 302400000000, none⟩).mpr ⟨rfl, by decide, by decide⟩

/-!
C8: deletes are visible to no subsequent read.
-/

/-- Facts packaged from a successful Product `GetByID`: the row found is
the first active product row with the id, carries the id, and is active. -/
theorem prod_getByID_ok_facts {prods : ProductTable} {cats : CategoryTable}
    {id : Int} {pr : Product}
    (h : ProductRepository.GetByID prods cats id = .ok pr) :
    pr.row.ID = id ∧ pr.row.DeletedAt = none := by
  cases hf : prods.find? (fun p => p.ID == id && p.DeletedAt.isNone) with
  | none =>
    exfalso
    simp only [ProductRepository.GetByID, hf] at h
    cases h
  | some p0 =>
    have hp0 := List.find?_some hf
    rw [Bool.and_eq_true] at hp0
    cases hc : cats.find? (fun c => c.ID == p0.CategoryID) with
    | none =>
      exfalso
      simp only [ProductRepository.GetByID, hf, hc] at h
      cases h
    | some c0 =>
      simp only [ProductRepository.GetByID, hf, hc, Except.ok.injEq] at h
      subst h
      refine ⟨?_, ?_⟩
      · simpa using hp0.1
      · simpa [Option.isNone_iff_eq_none] using hp0.2

/-- C8: after a successful Delete(id) on categories and on products, a
GetByID(id) on the resulting table reports NotFound and GetAll excludes the
id; in general, both GetAll reads return only active rows and both GetByID
reads only ever return an active row — soft-deleted rows are excluded from
every read. -/
theorem C8_delete_then_reads (tblA : CategoryTable) (prodsA : ProductTable)
    (cats : CategoryTable) (id : Int) (now : Nat)
    (tblB : CategoryTable) (prodsB : ProductTable)
    (hc : CategoryRepository.Delete tblA id now = .ok tblB)
    (hp : ProductRepository.Delete prodsA id now = .ok prodsB) :
    CategoryRepository.GetByID tblB id = .error .errNoRows
    ∧ (∀ c ∈ CategoryRepository.GetAll tblB, c.ID ≠ id)
    ∧ ProductRepository.GetByID prodsB cats id = .error .errNoRows
    ∧ (∀ p ∈ ProductRepository.GetAll prodsB, p.ID ≠ id)
    ∧ (∀ (tbl : CategoryTable) (c : Category),
        c ∈ CategoryRepository.GetAll tbl → c.DeletedAt = none)
    ∧ (∀ (prods : ProductTable) (p : ProductRow),
        p ∈ ProductRepository.GetAll prods → p.DeletedAt = none)
    ∧ (∀ (tbl : CategoryTable) (i : Int) (c : Category),
        CategoryRepository.GetByID tbl i = .ok c → c.DeletedAt = none)
    ∧ (∀ (prods : ProductTable) (cs : CategoryTable) (i : Int) (pr : Product),
        ProductRepository.GetByID prods cs i = .ok pr →
        pr.row.DeletedAt = none) := by
  have hB := cat_delete_ok_table hc
  have hPB := prod_delete_ok_table hp
  refine ⟨?_, ?_, ?_, ?_, ?_, ?_, ?_, ?_⟩
  · have hf : tblB.find? (catActiveWithID id) = none := by
      rw [hB, List.find?_eq_none]
      intro x hx
      obtain ⟨a, _, hfa⟩ := List.mem_map.mp hx
      subst hfa
      by_cases hca : catActiveWithID id a = true
      · rw [if_pos hca]
        simp [catActiveWithID]
      · rw [if_neg hca]
        exact hca
    simp [CategoryRepository.GetByID, hf]
  · intro c hcmem hid
    simp only [CategoryRepository.GetAll] at hcmem
    rw [hB] at hcmem
    have hmem := List.mem_filter.mp hcmem
    obtain ⟨a, _, hfa⟩ := List.mem_map.mp hmem.1
    have hactive := Option.isNone_iff_eq_none.mp hmem.2
    by_cases hca : catActiveWithID id a = true
    · rw [if_pos hca] at hfa
      rw [← hfa] at hactive
      simp at hactive
    · rw [if_neg hca] at hfa
      subst hfa
      rw [catActiveWithID_eq_true] at hca
      exact hca ⟨hid, hactive⟩
  · have hf : prodsB.find? (fun p => p.ID == id && p.DeletedAt.isNone)
        = none := by
      rw [hPB, List.find?_eq_none]
      intro x hx
      obtain ⟨a, _, hfa⟩ := List.mem_map.mp hx
      subst hfa
      by_cases hpa : (a.ID == id) = true
      · rw [if_pos hpa]
        simp
      · rw [if_neg hpa]
        simp [hpa]
    simp [ProductRepository.GetByID, hf]
  · intro p hpmem hid
    simp only [ProductRepository.GetAll] at hpmem
    rw [hPB] at hpmem
    have hmem := List.mem_filter.mp hpmem
    obtain ⟨a, _, hfa⟩ := List.mem_map.mp hmem.1
    have hactive := Option.isNone_iff_eq_none.mp hmem.2
    by_cases hpa : (a.ID == id) = true
    · rw [if_pos hpa] at hfa
      rw [← hfa] at hactive
      simp at hactive
    · rw [if_neg hpa] at hfa
      subst hfa
      exact hpa (by simp [hid])
  · intro tbl c hcmem
    exact Option.isNone_iff_eq_none.mp (List.mem_filter.mp hcmem).2
  · intro prods p hpmem
    exact Option.isNone_iff_eq_none.mp (List.mem_filter.mp hpmem).2
  · intro tbl i c h
    exact (getByID_ok_facts h).2.2.1
  · intro prods cs i pr h
    exact (prod_getByID_ok_facts h).2

/-- C8 witness: deleting category 3 and product 3 from one-row tables makes
GetByID report NotFound and empties GetAll. -/
theorem C8_witness :
    CategoryRepository.GetByID [⟨3, "snack", "s", some 11⟩] 3
      = .error .errNoRows
    ∧ ProductRepository.GetByID [⟨3, "tea", 10, 1, 1, some 11⟩] [] 3
      = .error .errNoRows := by
  have h := C8_delete_then_reads [⟨3, "snack", "s", none⟩]
    [⟨3, "tea", 10, 1, 1, none⟩] [] 3 11
    [⟨3, "snack", "s", some 11⟩] [⟨3, "tea", 10, 1, 1, some 11⟩] rfl rfl
  exact ⟨h.1, h.2.2.1⟩

/-!
C9, C1, C10: the category handler layer.
-/

/-- Category `GetByID` commutes with mapping a row function that preserves
the active-row predicate. -/
theorem getByID_map_pres (tbl : CategoryTable) (id : Int)
    (f : Category → Category)
    (hpres : ∀ c, catActiveWithID id (f c) = catActiveWithID id c) :
    CategoryRepository.GetByID (tbl.map f) id
      = (CategoryRepository.GetByID tbl id).map f := by
  unfold CategoryRepository.GetByID
  rw [List.find?_map]
  have hcomp : (catActiveWithID id ∘ f) = catActiveWithID id := funext hpres
  rw [hcomp]
  cases tbl.find? (catActiveWithID id) <;> rfl

/-- Category `Update` when the row lookup succeeds: returns the written
entity and the mapped table. -/
theorem update_ok_of_find {tbl : CategoryTable} {cat existing : Category}
    (hfindE : tbl.find? (catActiveWithID cat.ID) = some existing)
    (hID : existing.ID = cat.ID) :
    CategoryRepository.Update tbl cat
      = .ok (cat, tbl.map (fun c =>
          if catActiveWithID cat.ID c then
            { c with Name := cat.Name, Description := cat.Description }
          else c)) := by
  simp only [CategoryRepository.Update, hfindE]
  rw [hID]

/-- The entity returned by a successful category update carries the id of
the entity that was written. -/
theorem update_ok_ret_id {tbl : CategoryTable} {cat ret : Category}
    {tbl2 : CategoryTable}
    (h : CategoryRepository.Update tbl cat = .ok (ret, tbl2)) :
    ret.ID = cat.ID := by
  unfold CategoryRepository.Update at h
  cases hf : tbl.find? (catActiveWithID cat.ID) with
  | none => rw [hf] at h; cases h
  | some row =>
    rw [hf] at h
    simp only [Except.ok.injEq, Prod.mk.injEq] at h
    have hrow : row.ID = cat.ID :=
      (catActiveWithID_eq_true.mp (List.find?_some hf)).1
    rw [← h.1]
    exact hrow

/-- The update-statement map touches only rows carrying the written id, so
filtering the other rows out is unaffected by it. -/
theorem filter_neq_of_update_map (tbl : CategoryTable) (id2 : Int)
    (nm ds : String) :
    ((tbl.map (fun c => if catActiveWithID id2 c then
        { c with Name := nm, Description := ds } else c)).filter
      (fun c => !(c.ID == id2)))
      = tbl.filter (fun c => !(c.ID == id2)) := by
  rw [List.filter_map]
  have hcomp : ((fun c : Category => !(c.ID == id2))
      ∘ (fun c => if catActiveWithID id2 c then
          { c with Name := nm, Description := ds } else c))
      = fun c : Category => !(c.ID == id2) := by
    funext c
    by_cases hca : catActiveWithID id2 c = true
    · rw [Function.comp_apply, if_pos hca]
    · rw [Function.comp_apply, if_neg hca]
  rw [hcomp]
  apply map_fix_of_all
  intro a ha
  have hne2 := (List.mem_filter.mp ha).2
  have hne : ¬ (catActiveWithID id2 a = true) := by
    rw [catActiveWithID_eq_true]
    rintro ⟨h1, _⟩
    simp [h1] at hne2
  rw [if_neg hne]

/-- C9: when the id suffix of an {id} route is not a decimal integer, all
three category handlers answer 400 with a failed envelope, issue no service
call, and leave the table untouched. -/
theorem C9_bad_id_rejected (tbl : CategoryTable) (now : Nat) (idStr : String)
    (body : Option Category) (h : atoi idStr = none) :
    CategoryHandler.GetCategoryByID tbl idStr
        = ⟨400, ⟨"failed", "Invalid Category ID", none⟩, tbl, []⟩
    ∧ CategoryHandler.DeleteCategory tbl now idStr
        = ⟨400, ⟨"failed", "Invalid Category ID", none⟩, tbl, []⟩
    ∧ CategoryHandler.UpdateCategory tbl idStr body
        = ⟨400, ⟨"failed", "Invalid Category ID", none⟩, tbl, []⟩ := by
  refine ⟨?_, ?_, ?_⟩ <;>
    simp [CategoryHandler.GetCategoryByID, CategoryHandler.DeleteCategory,
      CategoryHandler.UpdateCategory, h]

/-- C9 witness: the suffix "abc" is rejected with 400 by the GET handler
without touching the one-row table. -/
theorem C9_witness :
    CategoryHandler.GetCategoryByID [⟨1, "a", "b", none⟩] "abc"
      = ⟨400, ⟨"failed", "Invalid Category ID", none⟩,
         [⟨1, "a", "b", none⟩], []⟩ :=
  (C9_bad_id_rejected [⟨1, "a", "b", none⟩] 0 "abc" none rfl).1

/-- C1: on PUT of an existing active category, the merge applies each
incoming string field only when non-empty: with only `name` set, the stored
name becomes the incoming value while the description keeps its stored
value (both in the response payload and in the table, as read back by
GetByID); with both fields empty, the stored table is left unchanged and
the stored entity is returned as-is. -/
theorem C1_partial_update_merge (tbl : CategoryTable) (idStr : String)
    (id : Int) (body existing : Category)
    (hid : atoi idStr = some id)
    (hnodup : (tbl.map Category.ID).Nodup)
    (hget : CategoryRepository.GetByID tbl id = .ok existing) :
    (body.Name ≠ "" → body.Description = "" →
      (CategoryHandler.UpdateCategory tbl idStr (some body)).code = 200
      ∧ (CategoryHandler.UpdateCategory tbl idStr (some body)).resp.Data
          = some { existing with Name := body.Name }
      ∧ CategoryRepository.GetByID
          (CategoryHandler.UpdateCategory tbl idStr (some body)).table id
          = .ok { existing with Name := body.Name })
    ∧ (body.Name = "" → body.Description = "" →
      (CategoryHandler.UpdateCategory tbl idStr (some body)).table = tbl
      ∧ (CategoryHandler.UpdateCategory tbl idStr (some body)).resp.Data
          = some existing) := by
  obtain ⟨hfind, hidEq, hdel, hmem⟩ := getByID_ok_facts hget
  constructor
  · intro hN hD
    have hfind1 : tbl.find?
        (catActiveWithID ({ existing with Name := body.Name } : Category).ID)
        = some existing := by
      show tbl.find? (catActiveWithID existing.ID) = some existing
      rw [hidEq]
      exact hfind
    have hu := update_ok_of_find hfind1 rfl
    have hout : CategoryHandler.UpdateCategory tbl idStr (some body)
        = ⟨200, ⟨"success", "Category updated successfully",
            some { existing with Name := body.Name }⟩,
           tbl.map (fun c =>
             if catActiveWithID existing.ID c then
               { c with Name := body.Name, Description := existing.Description }
             else c),
           ["GetByID", "Update"]⟩ := by
      simp [CategoryHandler.UpdateCategory, hid, hget, hD, hN, hu]
    refine ⟨by rw [hout], by rw [hout], ?_⟩
    rw [hout]
    have hpres : ∀ c, catActiveWithID id
        ((fun c => if catActiveWithID existing.ID c then
          { c with Name := body.Name, Description := existing.Description }
          else c) c)
        = catActiveWithID id c := by
      intro c
      by_cases hca : catActiveWithID existing.ID c = true
      · simp only [if_pos hca]
        simp [catActiveWithID]
      · simp only [if_neg hca]
    rw [getByID_map_pres tbl id _ hpres, hget]
    have hca : catActiveWithID existing.ID existing = true :=
      catActiveWithID_eq_true.mpr ⟨rfl, hdel⟩
    simp [Except.map, hca]
  · intro hN hD
    have hfind1 : tbl.find? (catActiveWithID (existing : Category).ID)
        = some existing := by
      rw [hidEq]
      exact hfind
    have hu := update_ok_of_find hfind1 rfl
    have hmap : tbl.map (fun c => if catActiveWithID existing.ID c then
        { c with Name := existing.Name, Description := existing.Description }
        else c) = tbl := by
      apply map_fix_of_all
      intro a ha
      by_cases hca : catActiveWithID existing.ID a = true
      · have haid : a.ID = existing.ID := (catActiveWithID_eq_true.mp hca).1
        have haeq : a = existing :=
          List.inj_on_of_nodup_map hnodup ha hmem haid
        subst haeq
        rw [if_pos hca]
      · rw [if_neg hca]
    rw [hmap] at hu
    constructor <;>
      simp [CategoryHandler.UpdateCategory, hid, hget, hN, hD, hu]

/-- C1 witness: with only `name` in the body, the stored description
survives; with both fields empty, the table is unchanged. -/
theorem C1_witness :
    (CategoryHandler.UpdateCategory [⟨7, "old", "olddesc", none⟩] "7"
      (some ⟨99, "new", "", none⟩)).resp.Data = some ⟨7, "new", "olddesc", none⟩
    ∧ (CategoryHandler.UpdateCategory [⟨7, "old", "olddesc", none⟩] "7"
      (some ⟨99, "", "", none⟩)).table = [⟨7, "old", "olddesc", none⟩] := by
  constructor
  · exact ((C1_partial_update_merge [⟨7, "old", "olddesc", none⟩] "7" 7
      ⟨99, "new", "", none⟩ ⟨7, "old", "olddesc", none⟩ rfl (by decide) rfl).1
      (by decide) rfl).2.1
  · exact ((C1_partial_update_merge [⟨7, "old", "olddesc", none⟩] "7" 7
      ⟨99, "", "", none⟩ ⟨7, "old", "olddesc", none⟩ rfl (by decide) rfl).2
      rfl rfl).1

/-- C10: the `id` field of the PUT body is ignored: the handler outcome is
unchanged if the body id is replaced by any other value, the id of the
returned payload is the one parsed from the URL path, and rows with other
ids are never modified. -/
theorem C10_body_id_ignored (tbl : CategoryTable) (idStr : String)
    (id j : Int) (body : Category) (hid : atoi idStr = some id) :
    CategoryHandler.UpdateCategory tbl idStr (some { body with ID := j })
      = CategoryHandler.UpdateCategory tbl idStr (some body)
    ∧ (∀ upd, (CategoryHandler.UpdateCategory tbl idStr (some body)).resp.Data
        = some upd → upd.ID = id)
    ∧ ((CategoryHandler.UpdateCategory tbl idStr (some body)).table.filter
          (fun c => !(c.ID == id))
        = tbl.filter (fun c => !(c.ID == id))) := by
  refine ⟨?_, ?_, ?_⟩
  · cases hge : CategoryRepository.GetByID tbl id with
    | error e => cases e <;> simp [CategoryHandler.UpdateCategory, hid, hge]
    | ok existing => simp [CategoryHandler.UpdateCategory, hid, hge]
  · intro upd hupd
    cases hge : CategoryRepository.GetByID tbl id with
    | error e =>
      cases e <;> simp [CategoryHandler.UpdateCategory, hid, hge] at hupd
    | ok existing =>
      obtain ⟨hfind, hidEq, hdel, hmem⟩ := getByID_ok_facts hge
      by_cases h1 : body.Name = ""
      · by_cases h2 : body.Description = ""
        · cases hu : CategoryRepository.Update tbl existing with
          | error e2 =>
            cases e2 <;>
              simp [CategoryHandler.UpdateCategory, hid, hge, h1, h2, hu] at hupd
          | ok pr =>
            obtain ⟨ret, tbl2⟩ := pr
            simp [CategoryHandler.UpdateCategory, hid, hge, h1, h2, hu] at hupd
            subst hupd
            rw [update_ok_ret_id hu]
            exact hidEq
        · cases hu : CategoryRepository.Update tbl
              { existing with Description := body.Description } with
          | error e2 =>
            cases e2 <;>
              simp [CategoryHandler.UpdateCategory, hid, hge, h1, h2, hu] at hupd
          | ok pr =>
            obtain ⟨ret, tbl2⟩ := pr
            simp [CategoryHandler.UpdateCategory, hid, hge, h1, h2, hu] at hupd
            subst hupd
            rw [update_ok_ret_id hu]
            exact hidEq
      · by_cases h2 : body.Description = ""
        · cases hu : CategoryRepository.Update tbl
              { existing with Name := body.Name } with
          | error e2 =>
            cases e2 <;>
              simp [CategoryHandler.UpdateCategory, hid, hge, h1, h2, hu] at hupd
          | ok pr =>
            obtain ⟨ret, tbl2⟩ := pr
            simp [CategoryHandler.UpdateCategory, hid, hge, h1, h2, hu] at hupd
            subst hupd
            rw [update_ok_ret_id hu]
            exact hidEq
        · cases hu : CategoryRepository.Update tbl
              { existing with Name := body.Name,
                              Description := body.Description } with
          | error e2 =>
            cases e2 <;>
              simp [CategoryHandler.UpdateCategory, hid, hge, h1, h2, hu] at hupd
          | ok pr =>
            obtain ⟨ret, tbl2⟩ := pr
            simp [CategoryHandler.UpdateCategory, hid, hge, h1, h2, hu] at hupd
            subst hupd
            rw [update_ok_ret_id hu]
            exact hidEq
  · cases hge : CategoryRepository.GetByID tbl id with
    | error e => cases e <;> simp [CategoryHandler.UpdateCategory, hid, hge]
    | ok existing =>
      obtain ⟨hfind, hidEq, hdel, hmem⟩ := getByID_ok_facts hge
      by_cases h1 : body.Name = ""
      · by_cases h2 : body.Description = ""
        · cases hu : CategoryRepository.Update tbl existing with
          | error e2 =>
            cases e2 <;>
              simp [CategoryHandler.UpdateCategory, hid, hge, h1, h2, hu]
          | ok pr =>
            obtain ⟨ret, tbl2⟩ := pr
            have htbl2 : tbl2 = tbl.map (fun c =>
                if catActiveWithID id c then
                  { c with Name := existing.Name,
                           Description := existing.Description }
                else c) := by
              rw [cat_update_ok_table hu, hidEq]
            simp [CategoryHandler.UpdateCategory, hid, hge, h1, h2, hu]
            rw [htbl2]
            exact filter_neq_of_update_map tbl id existing.Name
              existing.Description
        · cases hu : CategoryRepository.Update tbl
              { existing with Description := body.Description } with
          | error e2 =>
            cases e2 <;>
              simp [CategoryHandler.UpdateCategory, hid, hge, h1, h2, hu]
          | ok pr =>
            obtain ⟨ret, tbl2⟩ := pr
            have htbl2 : tbl2 = tbl.map (fun c =>
                if catActiveWithID id c then
                  { c with Name := existing.Name,
                           Description := body.Description }
                else c) := by
              rw [cat_update_ok_table hu]
              rw [show ({ existing with Description := body.Description }
                : Category).ID = id from hidEq]
            simp [CategoryHandler.UpdateCategory, hid, hge, h1, h2, hu]
            rw [htbl2]
            exact filter_neq_of_update_map tbl id existing.Name
              body.Description
      · by_cases h2 : body.Description = ""
        · cases hu : CategoryRepository.Update tbl
              { existing with Name := body.Name } with
          | error e2 =>
            cases e2 <;>
              simp [CategoryHandler.UpdateCategory, hid, hge, h1, h2, hu]
          | ok pr =>
            obtain ⟨ret, tbl2⟩ := pr
            have htbl2 : tbl2 = tbl.map (fun c =>
                if catActiveWithID id c then
                  { c with Name := body.Name,
                           Description := existing.Description }
                else c) := by
              rw [cat_update_ok_table hu]
              rw [show ({ existing with Name := body.Name }
                : Category).ID = id from hidEq]
            simp [CategoryHandler.UpdateCategory, hid, hge, h1, h2, hu]
            rw [htbl2]
            exact filter_neq_of_update_map tbl id body.Name
              existing.Description
        · cases hu : CategoryRepository.Update tbl
              { existing with Name := body.Name,
                              Description := body.Description } with
          | error e2 =>
            cases e2 <;>
              simp [CategoryHandler.UpdateCategory, hid, hge, h1, h2, hu]
          | ok pr =>
            obtain ⟨ret, tbl2⟩ := pr
            have htbl2 : tbl2 = tbl.map (fun c =>
                if catActiveWithID id c then
                  { c with Name := body.Name,
                           Description := body.Description }
                else c) := by
              have hcid : ({ existing with Name := body.Name, Description := body.Description } : Category).ID = id := hidEq
              rw [cat_update_ok_table hu, hcid]
            simp [CategoryHandler.UpdateCategory, hid, hge, h1, h2, hu]
            rw [htbl2]
            exact filter_neq_of_update_map tbl id body.Name body.Description

/-- C10 witness: a body carrying id 99 updates only the row named by the
URL id 7 and the payload comes back with id 7. -/
theorem C10_witness :
    CategoryHandler.UpdateCategory [⟨7, "old", "olddesc", none⟩] "7"
        (some ⟨99, "new", "d", none⟩)
      = CategoryHandler.UpdateCategory [⟨7, "old", "olddesc", none⟩] "7"
        (some ⟨5, "new", "d", none⟩)
    ∧ (∀ upd, (CategoryHandler.UpdateCategory [⟨7, "old", "olddesc", none⟩]
        "7" (some ⟨5, "new", "d", none⟩)).resp.Data = some upd →
        upd.ID = 7) := by
  have h := C10_body_id_ignored [⟨7, "old", "olddesc", none⟩] "7" 7 99
    ⟨5, "new", "d", none⟩ rfl
  exact ⟨h.1, h.2.1⟩

end KasirApi
